import Mathlib

/-!
Verification development for SLHAtools (src/SLHAtools.py), a reader/writer
for SLHA particle-physics parameter files.  The Python module is shallowly
embedded below: its string manipulation, its single-pass line parser
(`ReadSLHA`), its document model (`SLHAdata` with get/set accessors), and its
serializers (`_BlockToString`, `_DecayToString`, `Write`) are translated into
executable Lean definitions, and the stated properties of the module are
proved or refuted about those definitions.

Python `float` values (decay widths and branching ratios) are modelled by
`PyFloat`: an exact rational together with the special values inf, -inf, nan.
The code never compares, adds, or formats floats in any of the verified
properties (floats are only stored and returned), so the exact-rational model
is observationally adequate for every theorem below; the textual rendering of
a float by the serializer is approximated by `pyFloatStr`, on which no
theorem depends.
-/

namespace SLHA

/-! ### Python string primitives

Each definition mirrors the behaviour of the corresponding Python `str`
method as used by SLHAtools (ASCII inputs; the file format is ASCII text). -/

/-- Characters Python's `str.strip()` / `str.split()` treat as whitespace. -/
def pyIsSpace (c : Char) : Bool :=
  c = ' ' ∨ c = '\t' ∨ c = '\n' ∨ c = '\x0b' ∨ c = '\x0c' ∨ c = '\r'

/-- Python `str.strip()`. -/
def pyStrip (s : String) : String :=
  String.mk (((s.toList.dropWhile pyIsSpace).reverse.dropWhile pyIsSpace).reverse)

/-- ASCII lowercasing of one character (Python `str.lower()` on ASCII). -/
def asciiLowerC (c : Char) : Char :=
  if 'A' ≤ c ∧ c ≤ 'Z' then Char.ofNat (c.toNat + 32) else c

/-- Python `str.lower()` (ASCII range; SLHA keywords are ASCII). -/
def pyLower (s : String) : String :=
  String.mk (s.toList.map asciiLowerC)

/-- Python `str.startswith(pre)`. -/
def pyStartsWith (s pre : String) : Bool :=
  pre.toList.isPrefixOf s.toList

/-- Helper for `pySplitWs`: accumulates the current token (reversed). -/
def pySplitWsAux : List Char → List Char → List String
  | [], cur => if cur.isEmpty then [] else [String.mk cur.reverse]
  | c :: cs, cur =>
    if pyIsSpace c then
      if cur.isEmpty then pySplitWsAux cs []
      else String.mk cur.reverse :: pySplitWsAux cs []
    else pySplitWsAux cs (c :: cur)

/-- Python `str.split()` with no arguments: split on whitespace runs,
dropping empty tokens. -/
def pySplitWs (s : String) : List String :=
  pySplitWsAux s.toList []

/-- Python `str.split(None, 1)`: first token, then the remainder with its
leading whitespace removed; an all-whitespace remainder is dropped. -/
def pySplitNone1 (s : String) : List String :=
  let l := s.toList.dropWhile pyIsSpace
  if l.isEmpty then []
  else
    let tok := l.takeWhile (fun c => ¬ pyIsSpace c)
    let rest := (l.dropWhile (fun c => ¬ pyIsSpace c)).dropWhile pyIsSpace
    if rest.isEmpty then [String.mk tok] else [String.mk tok, String.mk rest]

/-- Helper for `pyDataDesc`: split a character list at the first `#`. -/
def splitHashAux : List Char → List Char × Option (List Char)
  | [] => ([], none)
  | c :: cs =>
    if c = '#' then ([], some cs)
    else
      let r := splitHashAux cs
      (c :: r.1, r.2)

/-- Python `line.split('#', 1)`: the data portion before the first `#` and
the description after it (empty when there is no `#`), as in ReadSLHA
lines 202-206. -/
def pyDataDesc (line : String) : String × String :=
  let r := splitHashAux line.toList
  (String.mk r.1, String.mk (r.2.getD []))

/-- Helper for `pyLines`: split at newline characters. -/
def linesAux : List Char → List Char → List String
  | [], cur => [String.mk cur.reverse]
  | c :: cs, cur =>
    if c = '\n' then String.mk cur.reverse :: linesAux cs []
    else linesAux cs (c :: cur)

/-- The lines of a file's text, as `f.readlines()` followed by the parser's
`line.strip()` sees them (a trailing empty line is harmless: the parser
ignores empty lines in every state). -/
def pyLines (t : String) : List String :=
  linesAux t.toList []

/-- Spaces, for Python's format padding. -/
def spaces (n : Nat) : String :=
  String.mk (List.replicate n ' ')

/-- Python format spec `{:<w}` applied to an already-rendered string:
left-justify, pad on the right to width `w`. -/
def pyPadL (w : Nat) (s : String) : String :=
  s ++ spaces (w - s.length)

/-- Python format spec `{:>w}`: right-justify, pad on the left to width `w`. -/
def pyPadR (w : Nat) (s : String) : String :=
  spaces (w - s.length) ++ s

/-! ### Python numeric literal parsing (`int(...)`, `float(...)`) -/

/-- Core digit-run parser: decimal digits with single underscores allowed
between digits (Python 3.6+ literals).  Returns the value and the number of
digits consumed; fails on an empty run, a misplaced underscore, or any other
character. -/
def digCore : Nat → Nat → List Char → Option (Nat × Nat)
  | acc, cnt, [] => some (acc, cnt)
  | acc, cnt, c :: cs =>
    if c.isDigit then digCore (10 * acc + (c.toNat - 48)) (cnt + 1) cs
    else if c = '_' then
      match cs with
      | [] => none
      | c2 :: cs2 =>
        if c2.isDigit then digCore (10 * acc + (c2.toNat - 48)) (cnt + 1) cs2
        else none
    else none

/-- A full digit run (must start with a digit and be nonempty). -/
def digRun (l : List Char) : Option (Nat × Nat) :=
  match l with
  | [] => none
  | c :: _ => if c.isDigit then digCore 0 0 l else none

/-- Python `int(token)` on a whitespace-free token: optional sign, then a
digit run.  Returns `none` where Python raises `ValueError`. -/
def pyInt? (s : String) : Option Int :=
  match s.toList with
  | '+' :: r => (digRun r).map (fun p => (p.1 : Int))
  | '-' :: r => (digRun r).map (fun p => -(p.1 : Int))
  | r => (digRun r).map (fun p => (p.1 : Int))

/-- Model of a Python `float` value: an exact rational, or inf, -inf, nan.
No verified property compares, combines, or prints these values, so the
exact-rational reading is observationally adequate. -/
inductive PyFloat where
  | q (v : Rat)
  | inf
  | ninf
  | nan
deriving DecidableEq, Repr

/-- Signed digit run (the exponent part of a float literal). -/
def signedDigits (l : List Char) : Option Int :=
  match l with
  | '+' :: r => (digRun r).map (fun p => (p.1 : Int))
  | '-' :: r => (digRun r).map (fun p => -(p.1 : Int))
  | r => (digRun r).map (fun p => (p.1 : Int))

/-- The numeric part of Python `float(...)`: `digits[.digits]` or `.digits`,
with an optional `e`/`E` exponent, underscores between digits. -/
def parseDecimal (cs : List Char) : Option Rat :=
  let mant := cs.takeWhile (fun c => c ≠ 'e' ∧ c ≠ 'E')
  let erest := cs.dropWhile (fun c => c ≠ 'e' ∧ c ≠ 'E')
  let expo? : Option Int :=
    match erest with
    | [] => some 0
    | _ :: ecs => signedDigits ecs
  match expo? with
  | none => none
  | some expo =>
    let ip := mant.takeWhile (fun c => c ≠ '.')
    let rest := mant.dropWhile (fun c => c ≠ '.')
    let mf? : Option (Nat × Nat) :=
      match rest with
      | [] => (digRun ip).map (fun p => (p.1, 0))
      | _ :: fp =>
        match ip, fp with
        | [], _ => digRun fp
        | _, [] => (digRun ip).map (fun p => (p.1, 0))
        | _, _ =>
          match digRun ip, digRun fp with
          | some pi, some pf => some (pi.1 * 10 ^ pf.2 + pf.1, pf.2)
          | _, _ => none
    match mf? with
    | none => none
    | some mf => some ((mf.1 : Rat) / (10 : Rat) ^ mf.2 * (10 : Rat) ^ expo)

/-- Python `float(token)` on a whitespace-free token: optional sign, then
`inf`/`infinity`/`nan` (case-insensitive) or a decimal literal.  Returns
`none` where Python raises `ValueError`. -/
def pyFloat? (s : String) : Option PyFloat :=
  match s.toList with
  | [] => none
  | cs =>
    let sgn : Bool × List Char :=
      match cs with
      | '+' :: r => (false, r)
      | '-' :: r => (true, r)
      | r => (false, r)
    let low := sgn.2.map asciiLowerC
    if low = ['i', 'n', 'f'] ∨ low = ['i', 'n', 'f', 'i', 'n', 'i', 't', 'y'] then
      some (if sgn.1 then PyFloat.ninf else PyFloat.inf)
    else if low = ['n', 'a', 'n'] then some PyFloat.nan
    else
      match parseDecimal sgn.2 with
      | some v => some (PyFloat.q (if sgn.1 then -v else v))
      | none => none

/-! ### Ordered dictionaries

Python `OrderedDict` is modelled by an association list: insertion appends,
lookup returns the first match, in-place update rewrites the first match.
The parser only ever inserts a key it has checked to be absent, so parsed
dictionaries have pairwise-distinct keys. -/

/-- First-match lookup in an association list (Python `d[k]`). -/
def dlook {κ α : Type} [DecidableEq κ] : List (κ × α) → κ → Option α
  | [], _ => none
  | p :: t, k => if p.1 = k then some p.2 else dlook t k

/-- In-place update of the first entry with key `k` (Python mutation of the
value object stored at an existing key); leaves the list unchanged when the
key is absent. -/
def dmod {κ α : Type} [DecidableEq κ] : List (κ × α) → κ → (α → α) → List (κ × α)
  | [], _, _ => []
  | p :: t, k, f => if p.1 = k then (p.1, f p.2) :: t else p :: dmod t k f

/-! ### The document model (class SLHAdata) -/

/-- An element of a tuple-shaped block key: Python stores either `int` or
`str` tuple components. -/
inductive KeyElem where
  | int (n : Int)
  | str (s : String)
deriving DecidableEq, Repr

/-- A block-entry key as stored by ReadSLHA: a scalar `int`, a scalar `str`,
or a tuple of elements. -/
inductive Key where
  | int (n : Int)
  | str (s : String)
  | tup (elems : List KeyElem)
deriving DecidableEq, Repr

/-- A stored value.  The parser always stores the raw string token; callers
of `SetValue` may store e.g. a Python `int` (the demo script passes `20`). -/
inductive Value where
  | str (s : String)
  | int (n : Int)
deriving DecidableEq, Repr

/-- One block entry: the dict
`{'key': keys, 'value': value, 'description': description, 'columns': columns}`
of ReadSLHA line 257. -/
structure Entry where
  key : Key
  value : Value
  description : String
  columns : Nat
deriving DecidableEq, Repr

/-- One block: the dict of ReadSLHA line 216. -/
structure Block where
  name : String
  description : String
  comments : String
  data : List (Key × Entry)
deriving DecidableEq, Repr

/-- One decay mode: the dict of ReadSLHA line 273. -/
structure DecayMode where
  nbody : Int
  daughters : List Int
  br : PyFloat
  description : String
deriving DecidableEq, Repr

/-- One decay table: the dict of ReadSLHA line 228. -/
structure Decay where
  pid : Int
  width : PyFloat
  description : String
  comments : String
  data : List (List Int × DecayMode)
deriving DecidableEq, Repr

/-- The SLHAdata document: preamble text plus ordered block and decay maps. -/
structure SLHAdata where
  preamble : String
  blocks : List (String × Block)
  decays : List (Int × Decay)
deriving DecidableEq, Repr

/-- The empty document built by `SLHAdata.__init__`. -/
def SLHAdata.empty : SLHAdata :=
  { preamble := "", blocks := [], decays := [] }

/-! ### The particle-ID table (module-level `PIDs`) -/

/-- The `PIDs` dict: `_SM_pid`, then `_Higgs_pid`, then `_MSSM_pid`. -/
def PIDs : List (String × Int) :=
  [("d", 1), ("u", 2), ("s", 3), ("c", 4), ("b", 5), ("t", 6),
   ("e", 11), ("ve", 12), ("mu", 13), ("vm", 14), ("tau", 15), ("vt", 16),
   ("g", 21), ("a", 22), ("Z", 23), ("W", 24),
   ("h", 25), ("H0", 35), ("A0", 36), ("H+", 37),
   ("~dL", 1000001), ("~uL", 1000002), ("~sL", 1000003), ("~cL", 1000004),
   ("~b1", 1000005), ("~t1", 1000006),
   ("~eL", 1000011), ("~ve", 1000012), ("~muL", 1000013), ("~vmu", 1000014),
   ("~tau1", 1000015), ("~vt", 1000016),
   ("~dR", 2000001), ("~uR", 2000002), ("~sR", 2000003), ("~cR", 2000004),
   ("~b2", 2000005), ("~t2", 2000006),
   ("~eR", 2000011), ("~veR", 2000012), ("~muR", 2000013), ("~vmuR", 2000014),
   ("~tau2", 2000015), ("~vtR", 2000016),
   ("~g", 1000021), ("~N1", 1000022), ("~N2", 1000023), ("~C1", 1000024),
   ("~N3", 1000025), ("~N4", 1000035), ("~C2", 1000037), ("~G", 1000039)]

/-- A particle argument: a symbolic name (Python `str`) or a raw integer ID. -/
inductive Particle where
  | name (s : String)
  | pid (n : Int)
deriving DecidableEq, Repr

/-- `GetPID(particle)`: resolve a name through `PIDs` (None when unknown),
pass a non-string argument through unchanged. -/
def GetPID : Particle → Option Int
  | Particle.name s => dlook PIDs s
  | Particle.pid n => some n

/-! ### Accessors (methods of SLHAdata) -/

/-- `Blocks()`: the block names in insertion order. -/
def SLHAdata.Blocks (d : SLHAdata) : List String :=
  d.blocks.map (fun p => p.1)

/-- `Decays()`: the particle IDs with decay tables, in insertion order. -/
def SLHAdata.Decays (d : SLHAdata) : List Int :=
  d.decays.map (fun p => p.1)

/-- `FindBlock(blockname)`: the first block name starting with the given
text (None when there is no match). -/
def SLHAdata.FindBlock (d : SLHAdata) (blockname : String) : Option String :=
  (d.Blocks.filter (fun b => pyStartsWith b blockname)).head?

/-- `GetBlock(blockname)`: the entry map of a block (None when missing). -/
def SLHAdata.GetBlock (d : SLHAdata) (blockname : String) : Option (List (Key × Entry)) :=
  (dlook d.blocks blockname).map Block.data

/-- `GetValue(block, id)`: the value of one entry (None when the block or
the key is missing). -/
def SLHAdata.GetValue (d : SLHAdata) (block : String) (id : Key) : Option Value :=
  match dlook d.blocks block with
  | none => none
  | some blk =>
    match dlook blk.data id with
    | none => none
    | some e => some e.value

/-- `SetValue(block, id, value)`: overwrite one entry's value in place.
Returns the updated document and the Python status code (0 on success, 1 on
`KeyError`, in which case the document is returned unchanged). -/
def SLHAdata.SetValue (d : SLHAdata) (block : String) (id : Key) (value : Value) :
    SLHAdata × Nat :=
  match dlook d.blocks block with
  | none => (d, 1)
  | some blk =>
    match dlook blk.data id with
    | none => (d, 1)
    | some _ =>
      ({ d with
          blocks := dmod d.blocks block (fun b =>
            { b with data := dmod b.data id (fun e => { e with value := value }) }) },
       0)

/-- `GetDecay(particle)`: the decay-mode map (None when the particle is
unknown or has no decay table). -/
def SLHAdata.GetDecay (d : SLHAdata) (particle : Particle) :
    Option (List (List Int × DecayMode)) :=
  match GetPID particle with
  | none => none
  | some pid => (dlook d.decays pid).map Decay.data

/-- `GetWidth(particle)`: the stored total width (None when the particle is
unknown or has no decay table). -/
def SLHAdata.GetWidth (d : SLHAdata) (particle : Particle) : Option PyFloat :=
  match GetPID particle with
  | none => none
  | some pid => (dlook d.decays pid).map Decay.width

/-- `GetBR(particle, daughters)`: the stored branching ratio, or the float
`0.` when any step of the lookup chain raises `KeyError` (unknown name,
no decay table, or absent daughter tuple). -/
def SLHAdata.GetBR (d : SLHAdata) (particle : Particle) (daughters : List Int) : PyFloat :=
  match GetPID particle with
  | none => PyFloat.q 0
  | some pid =>
    match dlook d.decays pid with
    | none => PyFloat.q 0
    | some dec =>
      match dlook dec.data daughters with
      | none => PyFloat.q 0
      | some m => m.br

/-! ### The parser (ReadSLHA) -/

/-- The parser's `data_type` variable: `'B'` or `'D'` (absent before the
first header). -/
inductive DT where
  | B
  | D
deriving DecidableEq, Repr

/-- The loop state of ReadSLHA: the document under construction, the current
record type, and the current block name / decay PID. -/
structure PState where
  doc : SLHAdata
  dt : Option DT
  curBlock : String
  curPid : Int
deriving DecidableEq, Repr

/-- The state at the top of the read loop (`SLHA_data = SLHAdata();
data_type = None`; `block`/`pid` are not yet assigned and are only read
after a header has set them). -/
def initState : PState :=
  { doc := SLHAdata.empty, dt := none, curBlock := "", curPid := 0 }

/-- ReadSLHA lines 192-199, a line starting with `#`: append it (with a
newline) to the preamble, the current block's comments, or the current
decay's comments.  When the state says a block/decay is current it exists in
the document (headers establish it and nothing removes it), so the `dmod`
always finds its key. -/
def commentStep (s : PState) (line : String) : PState :=
  match s.dt with
  | none =>
    { s with doc := { s.doc with preamble := s.doc.preamble ++ line ++ "\n" } }
  | some DT.B =>
    { s with doc := { s.doc with
        blocks := dmod s.doc.blocks s.curBlock (fun b =>
          { b with comments := b.comments ++ line ++ "\n" }) } }
  | some DT.D =>
    { s with doc := { s.doc with
        decays := dmod s.doc.decays s.curPid (fun dc =>
          { dc with comments := dc.comments ++ line ++ "\n" }) } }

/-- ReadSLHA lines 209-216, a line whose lowercase form starts with
`block`: `block = data.split(None,1)[1].strip()` (an `IndexError` — i.e.
`none` — when the data portion has no second field), then either warn about
a duplicate or append a fresh block. -/
def blockHeaderStep (s : PState) (data description : String) : Option PState :=
  match pySplitNone1 data with
  | [_, rest] =>
    let name := pyStrip rest
    if (dlook s.doc.blocks name).isSome then
      some { s with dt := some DT.B, curBlock := name }
    else
      some { s with
        dt := some DT.B, curBlock := name,
        doc := { s.doc with blocks := s.doc.blocks ++
          [(name, { name := name, description := description, comments := "",
                    data := [] })] } }
  | _ => none

/-- ReadSLHA lines 219-228, a line whose lowercase form starts with
`decay`: `pid = int(data[1]); width = float(data[2])` (an
`IndexError`/`ValueError` — i.e. `none` — when a token is missing or fails
to parse), then either warn about a duplicate or append a fresh table. -/
def decayHeaderStep (s : PState) (data description : String) : Option PState :=
  match pySplitWs data with
  | _ :: t1 :: t2 :: _ =>
    match pyInt? t1 with
    | none => none
    | some pid =>
      match pyFloat? t2 with
      | none => none
      | some width =>
        if (dlook s.doc.decays pid).isSome then
          some { s with dt := some DT.D, curPid := pid }
        else
          some { s with
            dt := some DT.D, curPid := pid,
            doc := { s.doc with decays := s.doc.decays ++
              [(pid, { pid := pid, width := width, description := description,
                       comments := "", data := [] })] } }
  | _ => none

/-- ReadSLHA lines 238-249: the key of a block entry line from its tokens.
With 1-2 columns the first token (int when parseable, else the string); with
exactly 3 columns the first two tokens as an all-int tuple when *every* one
parses, else an all-string tuple; with 4+ columns an all-string tuple. -/
def blockEntryKey (toks : List String) (t0 : String) : Key :=
  let columns := toks.length
  if columns ≤ 2 then
    match pyInt? t0 with
    | some n => Key.int n
    | none => Key.str t0
  else if columns = 3 then
    match toks.dropLast.mapM pyInt? with
    | some ns => Key.tup (ns.map KeyElem.int)
    | none => Key.tup (toks.dropLast.map KeyElem.str)
  else Key.tup (toks.dropLast.map KeyElem.str)

/-- ReadSLHA lines 233-257, a data line in block state: empty lines are
skipped, the key shape follows the column count, the last token is the
value, and a duplicate key is dropped with a warning.  The current block is
always present in the document (its header put it there), so the lookup's
`none` branch is unreachable and skips. -/
def blockEntryStep (s : PState) (data description : String) : PState :=
  let toks := pySplitWs data
  match toks with
  | [] => s
  | t0 :: _ =>
    let keys := blockEntryKey toks t0
    let value := Value.str (toks.getLastD "")
    match dlook s.doc.blocks s.curBlock with
    | none => s
    | some blk =>
      if (dlook blk.data keys).isSome then s
      else
        { s with doc := { s.doc with
            blocks := dmod s.doc.blocks s.curBlock (fun b =>
              { b with data := b.data ++
                [(keys, { key := keys, value := value,
                          description := description,
                          columns := toks.length })] }) } }

/-- ReadSLHA lines 260-273, a data line in decay state: lines with fewer
than 4 tokens are skipped silently; otherwise
`BR = float(data[0]); Nbody = int(data[1]); daughters = [int(d) ...]`
(a `ValueError` — i.e. `none` — when any parse fails), and a duplicate
daughter tuple is dropped with a warning. -/
def decayEntryStep (s : PState) (data description : String) : Option PState :=
  let toks := pySplitWs data
  if toks.length < 4 then some s
  else
    match toks with
    | t0 :: t1 :: rest =>
      match pyFloat? t0 with
      | none => none
      | some br =>
        match pyInt? t1 with
        | none => none
        | some nb =>
          match rest.mapM pyInt? with
          | none => none
          | some ds =>
            match dlook s.doc.decays s.curPid with
            | none => some s
            | some dec =>
              if (dlook dec.data ds).isSome then some s
              else
                some { s with doc := { s.doc with
                  decays := dmod s.doc.decays s.curPid (fun dc =>
                    { dc with data := dc.data ++
                      [(ds, { nbody := nb, daughters := ds, br := br,
                              description := description })] }) } }
    | _ => some s

/-- One iteration of the ReadSLHA loop on one raw line; `none` models an
uncaught Python exception aborting the whole read. -/
def step (s : PState) (rawLine : String) : Option PState :=
  let line := pyStrip rawLine
  if pyStartsWith line "#" then some (commentStep s line)
  else
    let dd := pyDataDesc line
    if pyStartsWith (pyLower line) "block" then blockHeaderStep s dd.1 dd.2
    else if pyStartsWith (pyLower line) "decay" then decayHeaderStep s dd.1 dd.2
    else
      match s.dt with
      | some DT.B => some (blockEntryStep s dd.1 dd.2)
      | some DT.D => decayEntryStep s dd.1 dd.2
      | none => some s

/-- Fold the loop over a list of lines. -/
def parseLines (ls : List String) : Option PState :=
  ls.foldl (fun s? l => s?.bind (fun s => step s l)) (some initState)

/-- `ReadSLHA`: parse a file's text into a document; `none` models a read
aborted by an uncaught exception. -/
def ReadSLHA (text : String) : Option SLHAdata :=
  (parseLines (pyLines text)).map PState.doc

/-! ### The serializer (_BlockToString, _DecayToString, Write) -/

/-- Rendering of a key-tuple element under Python `format`. -/
def keyElemStr : KeyElem → String
  | KeyElem.int n => toString n
  | KeyElem.str s => s

/-- Rendering of a stored value under Python `format`. -/
def valueStr : Value → String
  | Value.str s => s
  | Value.int n => toString n

/-- Stand-in for Python's `repr` of a float, used only to render decay
widths and branching ratios; no verified property depends on this text. -/
def pyFloatStr : PyFloat → String
  | PyFloat.q v =>
    if v.den = 1 then toString v.num ++ ".0"
    else toString v.num ++ "/" ++ toString v.den
  | PyFloat.inf => "inf"
  | PyFloat.ninf => "-inf"
  | PyFloat.nan => "nan"

/-- `_BlockToString(block)`: header with optional description, then one line
per entry — scalar keys in `{:<3}` plus two spaces, tuple elements in
`{:<2}` plus two spaces, the value in `{:<16}` only when the original column
count exceeds 1, then the optional description. -/
def _BlockToString (b : Block) : String :=
  let s0 := "BLOCK " ++ b.name
  let s0 := if b.description ≠ "" then s0 ++ "    # " ++ b.description else s0
  b.data.foldl (fun acc p =>
    let e := p.2
    let acc := acc ++ "\n  "
    let acc :=
      match e.key with
      | Key.int n => acc ++ pyPadL 3 (toString n) ++ "  "
      | Key.str t => acc ++ pyPadL 3 t ++ "  "
      | Key.tup es => es.foldl (fun a el => a ++ pyPadL 2 (keyElemStr el) ++ "  ") acc
    let acc := if e.columns > 1 then acc ++ pyPadL 16 (valueStr e.value) else acc
    if e.description ≠ "" then acc ++ "    # " ++ e.description else acc) s0

/-- `_DecayToString(decay)`: `DECAY` header with PID in `{:<8}` and width in
`{:<16}`, then one line per mode — BR in `{:<16}`, each daughter in `{:>8}`
(the stored N-body count is not written), then the optional description. -/
def _DecayToString (dc : Decay) : String :=
  let s0 := "DECAY   " ++ pyPadL 8 (toString dc.pid) ++ "   " ++ pyPadL 16 (pyFloatStr dc.width)
  let s0 := if dc.description ≠ "" then s0 ++ "    # " ++ dc.description else s0
  dc.data.foldl (fun acc p =>
    let m := p.2
    let acc := acc ++ "\n  " ++ pyPadL 16 (pyFloatStr m.br)
    let acc := m.daughters.foldl (fun a d => a ++ "  " ++ pyPadR 8 (toString d)) acc
    if m.description ≠ "" then acc ++ "    # " ++ m.description else acc) s0

/-- `GetBlockString(blockname)`: the serialized block, or the empty string
when the block is missing. -/
def SLHAdata.GetBlockString (d : SLHAdata) (blockname : String) : String :=
  match dlook d.blocks blockname with
  | none => ""
  | some b => _BlockToString b

/-- `GetDecayString(particle)`: the serialized decay table, or the empty
string when missing. -/
def SLHAdata.GetDecayString (d : SLHAdata) (particle : Particle) : String :=
  match GetPID particle with
  | none => ""
  | some pid =>
    match dlook d.decays pid with
    | none => ""
    | some dc => _DecayToString dc

/-- The text written by `SLHAdata.Write`: preamble plus newline, then each
block's string, a newline, its comment text and a newline, then likewise for
each decay table. -/
def writeString (d : SLHAdata) : String :=
  let s := d.preamble ++ "\n"
  let s := d.blocks.foldl (fun acc p =>
    acc ++ _BlockToString p.2 ++ "\n" ++ p.2.comments ++ "\n") s
  d.decays.foldl (fun acc p =>
    acc ++ _DecayToString p.2 ++ "\n" ++ p.2.comments ++ "\n") s

/-- Parse, then serialize: one round trip of the tool. -/
def serializeParse (t : String) : Option String :=
  (ReadSLHA t).map writeString

/-! ### The write target and `_IOstream`

`Write` may be handed a filename or one of the two process-standard
streams.  The observable resource behaviour of the `@contextmanager`
`_IOstream` is modelled as an event trace: for a filename it opens the file,
runs the body, and — only when the body finishes without raising — closes
it, because the generator's `yield` is not wrapped in try/finally, so an
exception thrown into the generator skips `f.close()`.  The standard streams
are yielded as-is and never closed. -/

/-- A write target of `SLHAdata.Write`. -/
inductive WTarget where
  | stdout
  | stderr
  | file (name : String)
deriving DecidableEq, Repr

/-- An observable file-handle / write event. -/
inductive IOEvent where
  | openFile (name : String)
  | write (s : String)
  | closeFile (name : String)
deriving DecidableEq, Repr

/-- The event trace of `with _IOstream(file) as f: body`, where `body` is
the sequence of writes the body performed before finishing or raising and
`raises` says whether it raised. -/
def IOstreamRun (t : WTarget) (body : List IOEvent) (raises : Bool) : List IOEvent :=
  match t with
  | WTarget.stdout => body
  | WTarget.stderr => body
  | WTarget.file n => IOEvent.openFile n :: (body ++ if raises then [] else [IOEvent.closeFile n])

end SLHA

namespace SLHA

/-! ### Association-list lemmas -/

theorem dlook_dmod_self {κ α : Type} [DecidableEq κ] (l : List (κ × α)) (k : κ)
    (f : α → α) (a : α) (h : dlook l k = some a) :
    dlook (dmod l k f) k = some (f a) := by
  induction l with
  | nil => simp [dlook] at h
  | cons p t ih =>
    by_cases hp : p.1 = k
    · simp [dlook, dmod, hp] at h ⊢
      exact congrArg f h
    · simp [dlook, dmod, hp] at h ⊢
      exact ih h

theorem dlook_dmod_ne {κ α : Type} [DecidableEq κ] (l : List (κ × α)) (k k' : κ)
    (f : α → α) (h : k' ≠ k) :
    dlook (dmod l k f) k' = dlook l k' := by
  induction l with
  | nil => simp [dmod]
  | cons p t ih =>
    by_cases hp : p.1 = k
    · have hkk : ¬ (k = k') := fun hh => h hh.symm
      simp [dlook, dmod, hp, hkk]
    · by_cases hq : p.1 = k'
      · simp [dlook, dmod, hp, hq, h]
      · simp [dlook, dmod, hp, hq, ih]

theorem dmod_keys {κ α : Type} [DecidableEq κ] (l : List (κ × α)) (k : κ) (f : α → α) :
    (dmod l k f).map Prod.fst = l.map Prod.fst := by
  induction l with
  | nil => simp [dmod]
  | cons p t ih =>
    by_cases hp : p.1 = k
    · simp [dmod, hp]
    · simp [dmod, hp, ih]

theorem dlook_append_new {κ α : Type} [DecidableEq κ] (l : List (κ × α)) (k : κ)
    (a : α) (h : dlook l k = none) :
    dlook (l ++ [(k, a)]) k = some a := by
  induction l with
  | nil => simp [dlook]
  | cons p t ih =>
    by_cases hp : p.1 = k
    · simp [dlook, hp] at h
    · simp [dlook, hp] at h ⊢
      exact ih h

theorem dlook_none_iff_not_mem {κ α : Type} [DecidableEq κ] (l : List (κ × α)) (k : κ) :
    dlook l k = none ↔ k ∉ l.map Prod.fst := by
  induction l with
  | nil => simp [dlook]
  | cons p t ih =>
    by_cases hp : p.1 = k
    · simp [dlook, hp]
    · have hkp : k ≠ p.1 := fun hh => hp hh.symm
      simp [dlook, hp, hkp, ih]

/-! ### Claim C7: SetValue on a missing block or key -/

/-- C7: `SetValue(block, key, value)` with a block name or key that is not
present leaves the document unchanged and returns status 1, while a
successful update returns status 0 — two distinct status codes (the
function is total, so the call never throws). -/
theorem C7_SetValue_status (d : SLHAdata) (b : String) (k : Key) (v : Value) :
    (dlook d.blocks b = none → d.SetValue b k v = (d, 1)) ∧
    (∀ blk, dlook d.blocks b = some blk → dlook blk.data k = none →
      d.SetValue b k v = (d, 1)) ∧
    (∀ blk e, dlook d.blocks b = some blk → dlook blk.data k = some e →
      (d.SetValue b k v).2 = 0) := by
  refine ⟨fun h => ?_, fun blk hb hk => ?_, fun blk e hb hk => ?_⟩
  · simp [SLHAdata.SetValue, h]
  · simp [SLHAdata.SetValue, hb, hk]
  · simp [SLHAdata.SetValue, hb, hk]

/-- A concrete document used to instantiate the accessor theorems: one block
`A` holding the single entry `1 -> "10"`. -/
def wdoc : SLHAdata :=
  { preamble := "",
    blocks := [("A",
      { name := "A", description := "", comments := "",
        data := [(Key.int 1,
          { key := Key.int 1, value := Value.str "10", description := "",
            columns := 2 })] })],
    decays := [] }

/-- Witness for C7 at a concrete document: a missing block, a missing key,
and a successful update. -/
theorem C7_SetValue_status_witness :
    wdoc.SetValue "B" (Key.int 1) (Value.int 20) = (wdoc, 1) ∧
    wdoc.SetValue "A" (Key.int 2) (Value.int 20) = (wdoc, 1) ∧
    (wdoc.SetValue "A" (Key.int 1) (Value.int 20)).2 = 0 :=
  ⟨(C7_SetValue_status wdoc "B" (Key.int 1) (Value.int 20)).1 rfl,
   (C7_SetValue_status wdoc "A" (Key.int 2) (Value.int 20)).2.1 _ rfl rfl,
   (C7_SetValue_status wdoc "A" (Key.int 1) (Value.int 20)).2.2 _ _ rfl rfl⟩

/-! ### Claim C10: the frame of a successful SetValue -/

/-- C10: a successful `SetValue(b, k, v)` changes only the value field of
the one targeted entry — the preamble, all decay tables, the block-name
list and order, every other block, the targeted block's name, description,
comments and entry order, every other entry, and the targeted entry's key,
description and column count are all unchanged. -/
theorem C10_SetValue_frame (d : SLHAdata) (b : String) (k : Key) (v : Value)
    (blk : Block) (e : Entry)
    (hb : dlook d.blocks b = some blk) (he : dlook blk.data k = some e) :
    (d.SetValue b k v).1.preamble = d.preamble ∧
    (d.SetValue b k v).1.decays = d.decays ∧
    (d.SetValue b k v).1.Blocks = d.Blocks ∧
    (∀ b', b' ≠ b → dlook (d.SetValue b k v).1.blocks b' = dlook d.blocks b') ∧
    (∃ blk', dlook (d.SetValue b k v).1.blocks b = some blk' ∧
      blk'.name = blk.name ∧ blk'.description = blk.description ∧
      blk'.comments = blk.comments ∧
      blk'.data.map Prod.fst = blk.data.map Prod.fst ∧
      (∀ k', k' ≠ k → dlook blk'.data k' = dlook blk.data k') ∧
      dlook blk'.data k = some
        { key := e.key, value := v, description := e.description,
          columns := e.columns }) := by
  have hset : (d.SetValue b k v).1 =
      { d with blocks := dmod d.blocks b (fun bb =>
          { bb with data := dmod bb.data k (fun ee => { ee with value := v }) }) } := by
    simp [SLHAdata.SetValue, hb, he]
  refine ⟨by rw [hset], by rw [hset], ?_, ?_, ?_⟩
  · rw [hset]
    simp [SLHAdata.Blocks, dmod_keys]
  · intro b' hb'
    rw [hset]
    exact dlook_dmod_ne d.blocks b b' _ hb'
  · have hb' : dlook (d.SetValue b k v).1.blocks b
        = some { blk with data := dmod blk.data k (fun ee => { ee with value := v }) } := by
      rw [hset]
      exact dlook_dmod_self d.blocks b _ blk hb
    refine ⟨_, hb', rfl, rfl, rfl, dmod_keys blk.data k _,
      fun k' hk' => dlook_dmod_ne blk.data k k' _ hk', ?_⟩
    exact dlook_dmod_self blk.data k _ e he

/-- Witness for C10 at a concrete document: the update succeeds and the
surrounding structure is unchanged. -/
theorem C10_SetValue_frame_witness :
    (wdoc.SetValue "A" (Key.int 1) (Value.int 20)).1.Blocks = wdoc.Blocks ∧
    (wdoc.SetValue "A" (Key.int 1) (Value.int 20)).1.preamble = wdoc.preamble := by
  have h := C10_SetValue_frame wdoc "A" (Key.int 1) (Value.int 20) _ _ rfl rfl
  exact ⟨h.2.2.1, h.1⟩

/-! ### Claim C6: GetBR total behaviour -/

/-- C6: `GetBR(particle, daughters)` returns the stored branching ratio when
the decay mode exists, and returns the float `0.0` — never raising and never
returning a not-found signal — when the daughter tuple is absent, when the
particle has no decay table, or when the particle name does not resolve. -/
theorem C6_GetBR_total (d : SLHAdata) (p : Particle) (dt : List Int) :
    (GetPID p = none → d.GetBR p dt = PyFloat.q 0) ∧
    (∀ pid, GetPID p = some pid → dlook d.decays pid = none →
      d.GetBR p dt = PyFloat.q 0) ∧
    (∀ pid dec, GetPID p = some pid → dlook d.decays pid = some dec →
      dlook dec.data dt = none → d.GetBR p dt = PyFloat.q 0) ∧
    (∀ pid dec m, GetPID p = some pid → dlook d.decays pid = some dec →
      dlook dec.data dt = some m → d.GetBR p dt = m.br) := by
  refine ⟨fun h => ?_, fun pid h1 h2 => ?_, fun pid dec h1 h2 h3 => ?_,
    fun pid dec m h1 h2 h3 => ?_⟩
  · simp [SLHAdata.GetBR, h]
  · simp [SLHAdata.GetBR, h1, h2]
  · simp [SLHAdata.GetBR, h1, h2, h3]
  · simp [SLHAdata.GetBR, h1, h2, h3]

/-- A concrete document with one decay table (PID 25, one mode `5 -5`),
used to instantiate the decay accessor theorems. -/
def wdocD : SLHAdata :=
  { preamble := "",
    blocks := [],
    decays := [(25,
      { pid := 25, width := PyFloat.q 2, description := "", comments := "",
        data := [([5, -5],
          { nbody := 2, daughters := [5, -5], br := PyFloat.q (1 / 2),
            description := "" })] })] }

/-- Witness for C6 at a concrete document: an unresolvable name, a particle
without a decay table, an absent mode, and a stored mode (looked up through
the symbolic name `h` resolving to 25). -/
theorem C6_GetBR_total_witness :
    wdocD.GetBR (Particle.name "nosuch") [1, 2] = PyFloat.q 0 ∧
    wdocD.GetBR (Particle.pid 26) [1, 2] = PyFloat.q 0 ∧
    wdocD.GetBR (Particle.pid 25) [1, 2] = PyFloat.q 0 ∧
    wdocD.GetBR (Particle.name "h") [5, -5] = PyFloat.q (1 / 2) :=
  ⟨(C6_GetBR_total wdocD (Particle.name "nosuch") [1, 2]).1 rfl,
   (C6_GetBR_total wdocD (Particle.pid 26) [1, 2]).2.1 26 rfl rfl,
   (C6_GetBR_total wdocD (Particle.pid 25) [1, 2]).2.2.1 25
     { pid := 25, width := PyFloat.q 2, description := "", comments := "",
       data := [([5, -5],
         { nbody := 2, daughters := [5, -5], br := PyFloat.q (1 / 2),
           description := "" })] } rfl rfl rfl,
   (C6_GetBR_total wdocD (Particle.name "h") [5, -5]).2.2.2 25
     { pid := 25, width := PyFloat.q 2, description := "", comments := "",
       data := [([5, -5],
         { nbody := 2, daughters := [5, -5], br := PyFloat.q (1 / 2),
           description := "" })] }
     { nbody := 2, daughters := [5, -5], br := PyFloat.q (1 / 2),
       description := "" } rfl rfl rfl⟩

/-! ### Claim C9: file-handle lifecycle of Write -/

/-- C9 (code bug): for a filename target, `_IOstream` closes the file only
when the body completes without raising — the generator's `yield` has no
try/finally, so an error during writing skips `f.close()`; the two standard
streams are indeed never closed.  The claim's "released on every exit path"
fails on the error path: the trace below contains no close event. -/
theorem C9_IOstream_error_path :
    IOstreamRun (WTarget.file "out.slha") [IOEvent.write "x"] true
      = [IOEvent.openFile "out.slha", IOEvent.write "x"] ∧
    (IOEvent.closeFile "out.slha" ∈
      IOstreamRun (WTarget.file "out.slha") [IOEvent.write "x"] true) = False ∧
    IOstreamRun (WTarget.file "out.slha") [IOEvent.write "x"] false
      = [IOEvent.openFile "out.slha", IOEvent.write "x",
         IOEvent.closeFile "out.slha"] ∧
    IOstreamRun WTarget.stdout [IOEvent.write "x"] true = [IOEvent.write "x"] ∧
    IOstreamRun WTarget.stderr [IOEvent.write "x"] false = [IOEvent.write "x"] := by
  refine ⟨rfl, ?_, rfl, rfl, rfl⟩
  simp [IOstreamRun]

end SLHA

namespace SLHA

/-! ### Claim C1: round-trip idempotence -/

/-- C1 (code bug): serialization is not idempotent across the tool's own
output.  The serializer emits `    # ` before a description while the
parser keeps everything after the `#` — including the emitted space — so
each round trip prepends one more space to every non-empty description:
the second round trip of `BLOCK A\n1 2 # d` differs from the first in the
description column. -/
theorem C1_roundtrip_not_idempotent :
    serializeParse "BLOCK A\n1 2 # d"
      = some "\nBLOCK A\n  1    2                   #  d\n\n" ∧
    (serializeParse "BLOCK A\n1 2 # d").bind serializeParse
      = some "\nBLOCK A\n  1    2                   #   d\n\n" ∧
    (serializeParse "BLOCK A\n1 2 # d").bind serializeParse
      ≠ serializeParse "BLOCK A\n1 2 # d" := by
  refine ⟨rfl, rfl, by decide⟩

/-! ### Claim C4: end-to-end get/set on MINPAR -/

/-- C4 (counterexample): after `SetValue('MINPAR', 3, 20)` the stored value
is the Python integer `20`, not the string `"20"` — `GetValue` returns
`Value.int 20`, which differs from the claimed `Value.str "20"`. -/
theorem C4_counterexample :
    (ReadSLHA "BLOCK MINPAR\n  3  10  # tanb\n").map
      (fun d => (d.SetValue "MINPAR" (Key.int 3) (Value.int 20)).1.GetValue
        "MINPAR" (Key.int 3))
      = some (some (Value.int 20)) ∧
    some (some (Value.int 20)) ≠ some (some (Value.str "20")) := by
  refine ⟨rfl, by decide⟩

/-- C4 (amended): on the input `BLOCK MINPAR\n  3  10  # tanb\n`,
`GetValue('MINPAR', 3)` returns the string `"10"`; `SetValue('MINPAR', 3,
20)` succeeds (status 0); afterwards `GetValue` returns the integer `20`
(the value as stored, not the string `"20"`), and re-serializing the block
shows `20` in that entry's value column. -/
theorem C4_amended_endtoend :
    (ReadSLHA "BLOCK MINPAR\n  3  10  # tanb\n").map
      (fun d => d.GetValue "MINPAR" (Key.int 3)) = some (some (Value.str "10")) ∧
    (ReadSLHA "BLOCK MINPAR\n  3  10  # tanb\n").map
      (fun d => (d.SetValue "MINPAR" (Key.int 3) (Value.int 20)).2) = some 0 ∧
    (ReadSLHA "BLOCK MINPAR\n  3  10  # tanb\n").map
      (fun d => (d.SetValue "MINPAR" (Key.int 3) (Value.int 20)).1.GetValue
        "MINPAR" (Key.int 3)) = some (some (Value.int 20)) ∧
    (ReadSLHA "BLOCK MINPAR\n  3  10  # tanb\n").map
      (fun d => (d.SetValue "MINPAR" (Key.int 3) (Value.int 20)).1.GetBlockString
        "MINPAR") = some "BLOCK MINPAR\n  3    20                  #  tanb" := by
  refine ⟨rfl, rfl, rfl, rfl⟩

/-! ### Claim C2: key shape of 3-column entry lines -/

/-- C2 (counterexample): for the 3-column line `1 x 0.5` the parser stores
the all-string tuple key `("1", "x")` — the claimed mixed key `(1, "x")` is
not present (lookup with it fails), because ReadSLHA parses the tuple
all-or-nothing: one failing token makes every element a string. -/
theorem C2_counterexample :
    (ReadSLHA "BLOCK A\n1 x 0.5\n").map
      (fun d => d.GetValue "A" (Key.tup [KeyElem.int 1, KeyElem.str "x"]))
      = some none ∧
    (ReadSLHA "BLOCK A\n1 x 0.5\n").map
      (fun d => d.GetValue "A" (Key.tup [KeyElem.str "1", KeyElem.str "x"]))
      = some (some (Value.str "0.5")) := by
  refine ⟨rfl, rfl⟩

/-- The key the amended C2 predicts for a 3-column entry line with first
two tokens `a`, `b`: the integer tuple when *both* tokens parse as
integers, otherwise the all-string tuple (no mixed tuples). -/
def threeColKey (a b : String) : Key :=
  match pyInt? a, pyInt? b with
  | some i, some j => Key.tup [KeyElem.int i, KeyElem.int j]
  | _, _ => Key.tup [KeyElem.str a, KeyElem.str b]

/-- The parser's key computation on a 3-column token list agrees with the
amended prediction `threeColKey`. -/
theorem blockEntryKey_three (a b c : String) :
    blockEntryKey [a, b, c] a = threeColKey a b := by
  unfold blockEntryKey threeColKey
  cases hA : pyInt? a <;> cases hB : pyInt? b <;>
    simp [List.mapM, List.mapM.loop, hA, hB, List.dropLast]

end SLHA


namespace SLHA

/-! ### Branch lemmas about one parser step -/

theorem commentStep_dt (s : PState) (l : String) : (commentStep s l).dt = s.dt := by
  rcases h : s.dt with _ | dtv
  · simp [commentStep, h]
  · cases dtv <;> simp [commentStep, h]

theorem commentStep_blockNames (s : PState) (l : String) :
    (commentStep s l).doc.Blocks = s.doc.Blocks := by
  rcases h : s.dt with _ | dtv
  · simp [commentStep, h, SLHAdata.Blocks]
  · cases dtv <;> simp [commentStep, h, SLHAdata.Blocks, dmod_keys]

theorem blockEntryStep_dt (s : PState) (data desc : String) :
    (blockEntryStep s data desc).dt = s.dt := by
  unfold blockEntryStep
  dsimp only
  repeat' split
  all_goals rfl

theorem blockEntryStep_blockNames (s : PState) (data desc : String) :
    (blockEntryStep s data desc).doc.Blocks = s.doc.Blocks := by
  unfold blockEntryStep
  dsimp only
  repeat' split
  all_goals first
  | rfl
  | simp [SLHAdata.Blocks, dmod_keys]

theorem decayEntryStep_some_frame (s : PState) (data desc : String) (s' : PState)
    (h : decayEntryStep s data desc = some s') :
    s'.dt = s.dt ∧ s'.doc.blocks = s.doc.blocks := by
  unfold decayEntryStep at h
  dsimp only at h
  repeat' split at h
  all_goals cases h
  all_goals exact ⟨rfl, rfl⟩

theorem decayHeaderStep_some_frame (s : PState) (data desc : String) (s' : PState)
    (h : decayHeaderStep s data desc = some s') :
    s'.dt = some DT.D ∧ s'.doc.blocks = s.doc.blocks := by
  unfold decayHeaderStep at h
  dsimp only at h
  repeat' split at h
  all_goals cases h
  all_goals exact ⟨rfl, rfl⟩

theorem blockHeaderStep_some_frame (s : PState) (data desc : String) (s' : PState)
    (h : blockHeaderStep s data desc = some s') :
    s'.dt = some DT.B ∧ (dlook s'.doc.blocks s'.curBlock).isSome = true := by
  unfold blockHeaderStep at h
  dsimp only at h
  split at h
  · rename_i hd rest heq
    split at h
    · rename_i hcond
      cases h
      exact ⟨rfl, hcond⟩
    · rename_i hcond
      cases h
      refine ⟨rfl, ?_⟩
      have hnone : dlook s.doc.blocks (pyStrip rest) = none := by
        cases hd : dlook s.doc.blocks (pyStrip rest)
        · rfl
        · rw [hd] at hcond
          simp at hcond
      rw [dlook_append_new s.doc.blocks (pyStrip rest) _ hnone]
      rfl
  all_goals cases h

end SLHA

namespace SLHA

/-- C2 (amended): in block state, a non-comment non-header entry line whose
data portion has exactly 3 whitespace-separated columns stores the key
`threeColKey a b` — the integer pair when *both* of the first two tokens
parse as integers, otherwise the all-string pair (never a mixed tuple) —
with the third token as the value and column count 3 (stated for a key not
already present; a duplicate is dropped). -/
theorem C2_threecol_amended (s : PState) (l a b c : String) (blk : Block)
    (hdt : s.dt = some DT.B)
    (hnc : pyStartsWith (pyStrip l) "#" = false)
    (hnb : pyStartsWith (pyLower (pyStrip l)) "block" = false)
    (hnd : pyStartsWith (pyLower (pyStrip l)) "decay" = false)
    (htoks : pySplitWs (pyDataDesc (pyStrip l)).1 = [a, b, c])
    (hblk : dlook s.doc.blocks s.curBlock = some blk)
    (hnew : dlook blk.data (threeColKey a b) = none) :
    ∃ s', step s l = some s' ∧
      ∃ blk', dlook s'.doc.blocks s.curBlock = some blk' ∧
        dlook blk'.data (threeColKey a b) = some
          { key := threeColKey a b, value := Value.str c,
            description := (pyDataDesc (pyStrip l)).2, columns := 3 } := by
  have hstep : step s l
      = some (blockEntryStep s (pyDataDesc (pyStrip l)).1 (pyDataDesc (pyStrip l)).2) := by
    simp [step, hnc, hnb, hnd, hdt]
  have hbe : blockEntryStep s (pyDataDesc (pyStrip l)).1 (pyDataDesc (pyStrip l)).2
      = { s with doc := { s.doc with blocks := dmod s.doc.blocks s.curBlock (fun bb =>
          { bb with data := bb.data ++
            [(threeColKey a b,
              { key := threeColKey a b, value := Value.str c,
                description := (pyDataDesc (pyStrip l)).2, columns := 3 })] }) } } := by
    unfold blockEntryStep
    rw [htoks]
    dsimp only
    rw [blockEntryKey_three, hblk]
    simp [hnew]
  rw [hbe] at hstep
  refine ⟨_, hstep, ?_⟩
  refine ⟨_, dlook_dmod_self s.doc.blocks s.curBlock _ blk hblk, ?_⟩
  exact dlook_append_new blk.data (threeColKey a b) _ hnew

/-- The block record stored in `wdoc` under the name `A`. -/
def wblkA : Block :=
  { name := "A", description := "", comments := "",
    data := [(Key.int 1,
      { key := Key.int 1, value := Value.str "10", description := "",
        columns := 2 })] }

/-- Witness for C2 (amended) at concrete states: the all-integer line
`1 3 0.5` stores the integer pair and the mixed line `1 x 0.5` stores the
all-string pair. -/
theorem C2_threecol_amended_witness :
    (∃ s', step { doc := wdoc, dt := some DT.B, curBlock := "A", curPid := 0 }
        "1 3 0.5" = some s' ∧
      ∃ blk', dlook s'.doc.blocks "A" = some blk' ∧
        dlook blk'.data (threeColKey "1" "3") = some
          { key := threeColKey "1" "3", value := Value.str "0.5",
            description := "", columns := 3 }) ∧
    (∃ s', step { doc := wdoc, dt := some DT.B, curBlock := "A", curPid := 0 }
        "1 x 0.5" = some s' ∧
      ∃ blk', dlook s'.doc.blocks "A" = some blk' ∧
        dlook blk'.data (threeColKey "1" "x") = some
          { key := threeColKey "1" "x", value := Value.str "0.5",
            description := "", columns := 3 }) :=
  ⟨C2_threecol_amended _ "1 3 0.5" "1" "3" "0.5" wblkA rfl rfl rfl rfl rfl rfl rfl,
   C2_threecol_amended _ "1 x 0.5" "1" "x" "0.5" wblkA rfl rfl rfl rfl rfl rfl rfl⟩

/-! ### Claim C8: what counts as a block header -/

/-- C8 (counterexample): the line `blockx 1 2`, whose first token merely
begins with `block`, IS treated as a block header — the parser's test is
`line.lower().startswith('block')`, so the parse yields one block (named
`1 2`, the remainder after the first token group), not zero. -/
theorem C8_counterexample :
    (ReadSLHA "blockx 1 2").map SLHAdata.Blocks = some ["1 2"] ∧
    some ["1 2"] ≠ some ([] : List String) := by
  refine ⟨rfl, by decide⟩

/-- C8 (amended): the parser routes a non-comment line to the block-header
branch exactly when the stripped line's lowercase form *starts with*
`block` (a prefix test on the line, not first-token equality).  With the
prefix, the step either aborts (header without a name field) or lands in
block state with the current block present in the document; without the
prefix, a surviving step never newly enters block state and never changes
the block-name list. -/
theorem C8_blockheader_routing (s : PState) (l : String)
    (hnc : pyStartsWith (pyStrip l) "#" = false) :
    (pyStartsWith (pyLower (pyStrip l)) "block" = true →
      step s l = none ∨
      ∃ s', step s l = some s' ∧ s'.dt = some DT.B ∧
        (dlook s'.doc.blocks s'.curBlock).isSome = true) ∧
    (pyStartsWith (pyLower (pyStrip l)) "block" = false →
      ∀ s', step s l = some s' →
        (s'.dt = some DT.B → s.dt = some DT.B) ∧
        s'.doc.Blocks = s.doc.Blocks) := by
  constructor
  · intro hb
    have hstep : step s l
        = blockHeaderStep s (pyDataDesc (pyStrip l)).1 (pyDataDesc (pyStrip l)).2 := by
      simp [step, hnc, hb]
    cases hres : blockHeaderStep s (pyDataDesc (pyStrip l)).1 (pyDataDesc (pyStrip l)).2 with
    | none => exact Or.inl (hstep.trans hres)
    | some s' =>
      refine Or.inr ⟨s', hstep.trans hres, ?_⟩
      have hf := blockHeaderStep_some_frame s _ _ s' hres
      exact ⟨hf.1, hf.2⟩
  · intro hb s' hstep
    by_cases hd : pyStartsWith (pyLower (pyStrip l)) "decay" = true
    · have hstep2 : decayHeaderStep s (pyDataDesc (pyStrip l)).1 (pyDataDesc (pyStrip l)).2
          = some s' := by
        rw [← hstep]
        simp [step, hnc, hb, hd]
      have hf := decayHeaderStep_some_frame s _ _ s' hstep2
      constructor
      · intro hB
        rw [hf.1] at hB
        cases hB
      · simp [SLHAdata.Blocks, hf.2]
    · have hd' : pyStartsWith (pyLower (pyStrip l)) "decay" = false := by
        simpa using hd
      rcases hdt : s.dt with _ | dtv
      · have : step s l = some s := by
          simp [step, hnc, hb, hd', hdt]
        rw [this] at hstep
        cases hstep
        refine ⟨fun hB => ?_, rfl⟩
        exact hdt ▸ hB
      · cases dtv with
        | B =>
          have hstep2 : step s l
              = some (blockEntryStep s (pyDataDesc (pyStrip l)).1
                  (pyDataDesc (pyStrip l)).2) := by
            simp [step, hnc, hb, hd', hdt]
          rw [hstep2] at hstep
          cases hstep
          exact ⟨fun _ => rfl, blockEntryStep_blockNames s _ _⟩
        | D =>
          have hstep2 : decayEntryStep s (pyDataDesc (pyStrip l)).1
              (pyDataDesc (pyStrip l)).2 = some s' := by
            rw [← hstep]
            simp [step, hnc, hb, hd', hdt]
          have hf := decayEntryStep_some_frame s _ _ s' hstep2
          constructor
          · intro hB
            rw [hf.1, hdt] at hB
            simp at hB
          · simp [SLHAdata.Blocks, hf.2]

end SLHA

namespace SLHA

/-- Witness for C8 (amended) at concrete inputs: `blockx 1 2` is routed as
a block header from the start state, and the plain data line `3 10` neither
enters block state nor changes the block list. -/
theorem C8_blockheader_routing_witness :
    (step initState "blockx 1 2" = none ∨
      ∃ s', step initState "blockx 1 2" = some s' ∧ s'.dt = some DT.B ∧
        (dlook s'.doc.blocks s'.curBlock).isSome = true) ∧
    (∀ s', step initState "3 10" = some s' →
      (s'.dt = some DT.B → initState.dt = some DT.B) ∧
      s'.doc.Blocks = initState.doc.Blocks) :=
  ⟨(C8_blockheader_routing initState "blockx 1 2" rfl).1 rfl,
   (C8_blockheader_routing initState "3 10" rfl).2 rfl⟩

end SLHA

namespace SLHA

/-! ### Characterising the lines on which a read aborts -/

theorem pySplitNone1_len (s : String) : (pySplitNone1 s).length ≤ 2 := by
  unfold pySplitNone1
  dsimp only
  split
  · simp
  · split <;> simp

theorem blockHeaderStep_none_iff (s : PState) (data desc : String) :
    blockHeaderStep s data desc = none ↔ (pySplitNone1 data).length ≤ 1 := by
  have hlen := pySplitNone1_len data
  unfold blockHeaderStep
  rcases hsp : pySplitNone1 data with _ | ⟨x, _ | ⟨y, _ | ⟨z, r⟩⟩⟩
  · simp
  · simp
  · dsimp only
    split <;> simp
  · rw [hsp] at hlen
    simp at hlen

theorem decayHeaderStep_none_iff (s : PState) (data desc : String) :
    decayHeaderStep s data desc = none ↔
      ((pySplitWs data).length < 3 ∨
        pyInt? ((pySplitWs data).getD 1 "") = none ∨
        pyFloat? ((pySplitWs data).getD 2 "") = none) := by
  unfold decayHeaderStep
  rcases hsp : pySplitWs data with _ | ⟨t0, _ | ⟨t1, _ | ⟨t2, r⟩⟩⟩
  · simp
  · simp
  · simp
  · dsimp only
    cases hI : pyInt? t1 <;> cases hF : pyFloat? t2
    · simp [hI, hF]
    · simp [hI, hF]
    · simp [hI, hF]
    · rename_i pid width
      simp only [hI, hF]
      split <;> simp [hI, hF]

theorem decayEntryStep_none_iff (s : PState) (data desc : String) :
    decayEntryStep s data desc = none ↔
      (4 ≤ (pySplitWs data).length ∧
        (pyFloat? ((pySplitWs data).getD 0 "") = none ∨
          pyInt? ((pySplitWs data).getD 1 "") = none ∨
          ((pySplitWs data).drop 2).mapM pyInt? = none)) := by
  unfold decayEntryStep
  by_cases hl : (pySplitWs data).length < 4
  · dsimp only
    rw [if_pos hl]
    simp
    intro h4
    omega
  · have hl4 : 4 ≤ (pySplitWs data).length := Nat.le_of_not_lt hl
    rcases hsp : pySplitWs data with _ | ⟨t0, _ | ⟨t1, rest⟩⟩
    · rw [hsp] at hl4; simp at hl4
    · rw [hsp] at hl4; simp at hl4
    · rw [hsp] at hl hl4
      simp only [List.length_cons] at hl4
      dsimp only
      rw [if_neg hl]
      cases hF : pyFloat? t0 <;> cases hI : pyInt? t1 <;>
        cases hM : rest.mapM pyInt? <;>
        simp only [List.mapM] at hM
      · simp [hF, hI, hM] <;> omega
      · simp [hF, hI, hM] <;> omega
      · simp [hF, hI, hM] <;> omega
      · simp [hF, hI, hM] <;> omega
      · simp [hF, hI, hM] <;> omega
      · simp [hF, hI, hM] <;> omega
      · simp [hF, hI, hM] <;> omega
      · simp only [hF, hI, hM]
        repeat' split
        all_goals simp [hF, hI, hM] <;> omega

/-- The amended C3's characterisation of an aborting line: a block header
lacking a name field, a malformed decay header (missing or unparseable
PID/width tokens), or — in decay state — a decay-mode line of at least 4
tokens whose BR, N-body, or daughter tokens fail to parse.  Everything else
(duplicates, short mode lines, any block entry line, comments) survives. -/
def readAbortCond (s : PState) (l : String) : Prop :=
  pyStartsWith (pyStrip l) "#" = false ∧
  ((pyStartsWith (pyLower (pyStrip l)) "block" = true ∧
      (pySplitNone1 (pyDataDesc (pyStrip l)).1).length ≤ 1) ∨
   (pyStartsWith (pyLower (pyStrip l)) "block" = false ∧
      pyStartsWith (pyLower (pyStrip l)) "decay" = true ∧
      ((pySplitWs (pyDataDesc (pyStrip l)).1).length < 3 ∨
        pyInt? ((pySplitWs (pyDataDesc (pyStrip l)).1).getD 1 "") = none ∨
        pyFloat? ((pySplitWs (pyDataDesc (pyStrip l)).1).getD 2 "") = none)) ∨
   (pyStartsWith (pyLower (pyStrip l)) "block" = false ∧
      pyStartsWith (pyLower (pyStrip l)) "decay" = false ∧
      s.dt = some DT.D ∧
      4 ≤ (pySplitWs (pyDataDesc (pyStrip l)).1).length ∧
      (pyFloat? ((pySplitWs (pyDataDesc (pyStrip l)).1).getD 0 "") = none ∨
        pyInt? ((pySplitWs (pyDataDesc (pyStrip l)).1).getD 1 "") = none ∨
        ((pySplitWs (pyDataDesc (pyStrip l)).1).drop 2).mapM pyInt? = none)))

theorem foldl_step_none (ls : List String) :
    ∀ s0, ls.foldl (fun s? l => s?.bind (fun s => step s l)) (some s0) = none →
      ∃ s l, l ∈ ls ∧ step s l = none := by
  induction ls with
  | nil =>
    intro s0 h
    simp at h
  | cons hd tl ih =>
    intro s0 h
    simp only [List.foldl_cons] at h
    cases hstep : step s0 hd with
    | none => exact ⟨s0, hd, List.mem_cons_self hd tl, hstep⟩
    | some s1 =>
      rw [show (some s0).bind (fun s => step s hd) = step s0 hd from rfl, hstep] at h
      obtain ⟨s, l, hmem, hfail⟩ := ih s1 h
      exact ⟨s, l, List.mem_cons_of_mem hd hmem, hfail⟩

end SLHA

namespace SLHA

/-- C3 (counterexample): conditions other than a malformed decay header
also abort the whole read — a bare `BLOCK` header with no name field
crashes the read with an IndexError, and a decay-mode line of 4 tokens with
an unparseable N-body token crashes it with a ValueError. -/
theorem C3_counterexample :
    ReadSLHA "BLOCK" = none ∧ ReadSLHA "DECAY 25 1.0\n0.5 x 1 2" = none := by
  refine ⟨rfl, rfl⟩

/-- C3 (amended): a parser step aborts the read exactly on three families
of lines — a block header lacking a name field, a decay header with
missing or unparseable PID/width tokens, and (in decay state) a decay-mode
line of at least 4 tokens whose BR, N-body, or daughter tokens fail to
parse.  Every other line — duplicates of blocks, decays, entries or modes,
decay-mode lines with fewer than 4 tokens, any block entry line, and any
comment — is handled non-fatally, and an aborted read always traces back to
a line of those three families. -/
theorem C3_abort_characterisation :
    (∀ s l, step s l = none ↔ readAbortCond s l) ∧
    (∀ t, ReadSLHA t = none → ∃ s l, l ∈ pyLines t ∧ readAbortCond s l) := by
  have hmain : ∀ s l, step s l = none ↔ readAbortCond s l := by
    intro s l
    by_cases hc : pyStartsWith (pyStrip l) "#" = true
    · simp [step, hc, readAbortCond]
    · have hc' : pyStartsWith (pyStrip l) "#" = false := by
        simpa using hc
      by_cases hb : pyStartsWith (pyLower (pyStrip l)) "block" = true
      · rw [show step s l = blockHeaderStep s (pyDataDesc (pyStrip l)).1
            (pyDataDesc (pyStrip l)).2 from by simp [step, hc', hb]]
        rw [blockHeaderStep_none_iff]
        simp [readAbortCond, hc', hb]
      · have hb' : pyStartsWith (pyLower (pyStrip l)) "block" = false := by
          simpa using hb
        by_cases hd : pyStartsWith (pyLower (pyStrip l)) "decay" = true
        · rw [show step s l = decayHeaderStep s (pyDataDesc (pyStrip l)).1
              (pyDataDesc (pyStrip l)).2 from by simp [step, hc', hb', hd]]
          rw [decayHeaderStep_none_iff]
          simp [readAbortCond, hc', hb', hd]
        · have hd' : pyStartsWith (pyLower (pyStrip l)) "decay" = false := by
            simpa using hd
          rcases hdt : s.dt with _ | dtv
          · simp [step, hc', hb', hd', hdt, readAbortCond]
          · cases dtv with
            | B => simp [step, hc', hb', hd', hdt, readAbortCond]
            | D =>
              rw [show step s l = decayEntryStep s (pyDataDesc (pyStrip l)).1
                  (pyDataDesc (pyStrip l)).2 from by simp [step, hc', hb', hd', hdt]]
              rw [decayEntryStep_none_iff]
              simp [readAbortCond, hc', hb', hd', hdt]
  refine ⟨hmain, fun t h => ?_⟩
  have hp : parseLines (pyLines t) = none := by
    unfold ReadSLHA at h
    exact Option.map_eq_none.mp h
  obtain ⟨s, l, hmem, hfail⟩ := foldl_step_none (pyLines t) initState hp
  exact ⟨s, l, hmem, (hmain s l).mp hfail⟩

/-- Witness for C3 at a concrete input: the bare header `BLOCK` satisfies
the abort characterisation (so the step aborts), and the aborted read of
`BLOCK` traces back to an aborting line. -/
theorem C3_abort_characterisation_witness :
    step initState "BLOCK" = none ∧
    (∃ s l, l ∈ pyLines "BLOCK" ∧ readAbortCond s l) :=
  ⟨(C3_abort_characterisation.1 initState "BLOCK").mpr
     (by unfold readAbortCond; decide),
   C3_abort_characterisation.2 "BLOCK" rfl⟩

end SLHA

namespace SLHA

/-! ### Uniqueness of block names across a parse -/

theorem blockHeaderStep_nodup (s : PState) (data desc : String) (s' : PState)
    (h : blockHeaderStep s data desc = some s') (hn : s.doc.Blocks.Nodup) :
    s'.doc.Blocks.Nodup := by
  unfold blockHeaderStep at h
  dsimp only at h
  split at h
  · rename_i hd rest heq
    split at h
    · cases h
      exact hn
    · rename_i hcond
      cases h
      have hnone : dlook s.doc.blocks (pyStrip rest) = none := by
        cases hdl : dlook s.doc.blocks (pyStrip rest)
        · rfl
        · rw [hdl] at hcond
          simp at hcond
      have hnotmem : pyStrip rest ∉ s.doc.blocks.map Prod.fst :=
        (dlook_none_iff_not_mem _ _).mp hnone
      simp only [SLHAdata.Blocks, List.map_append, List.map_cons, List.map_nil] at hn ⊢
      rw [List.nodup_append]
      refine ⟨hn, List.nodup_singleton _, ?_⟩
      intro a ha hmem
      simp at hmem
      rw [hmem] at ha
      exact hnotmem ha
  · cases h

theorem step_preserves_nodup (s : PState) (l : String) (s' : PState)
    (h : step s l = some s') (hn : s.doc.Blocks.Nodup) : s'.doc.Blocks.Nodup := by
  unfold step at h
  dsimp only at h
  split at h
  · cases h
    rw [commentStep_blockNames]
    exact hn
  · split at h
    · exact blockHeaderStep_nodup _ _ _ _ h hn
    · split at h
      · have hf := decayHeaderStep_some_frame _ _ _ _ h
        have hB : s'.doc.Blocks = s.doc.Blocks := by
          simp [SLHAdata.Blocks, hf.2]
        rw [hB]
        exact hn
      · split at h
        · cases h
          rw [blockEntryStep_blockNames]
          exact hn
        · have hf := decayEntryStep_some_frame _ _ _ _ h
          have hB : s'.doc.Blocks = s.doc.Blocks := by
            simp [SLHAdata.Blocks, hf.2]
          rw [hB]
          exact hn
        · cases h
          exact hn

theorem foldl_step_from_none (ls : List String) :
    ls.foldl (fun s? l => s?.bind (fun st => step st l)) none = none := by
  induction ls with
  | nil => rfl
  | cons hd tl ih =>
    simp only [List.foldl_cons, Option.none_bind]
    exact ih

theorem foldl_step_nodup (ls : List String) :
    ∀ s0 s, s0.doc.Blocks.Nodup →
      ls.foldl (fun s? l => s?.bind (fun st => step st l)) (some s0) = some s →
      s.doc.Blocks.Nodup := by
  induction ls with
  | nil =>
    intro s0 s hn h
    simp at h
    rw [← h]
    exact hn
  | cons hd tl ih =>
    intro s0 s hn h
    simp only [List.foldl_cons] at h
    cases hstep : step s0 hd with
    | none =>
      rw [show (some s0).bind (fun st => step st hd) = step s0 hd from rfl, hstep] at h
      rw [foldl_step_from_none] at h
      cases h
    | some s1 =>
      rw [show (some s0).bind (fun st => step st hd) = step s0 hd from rfl, hstep] at h
      exact ih s1 s (step_preserves_nodup s0 hd s1 hstep hn) h

theorem blockEntryStep_other_blocks (s : PState) (data desc : String) (b' : String)
    (hb' : b' ≠ s.curBlock) :
    dlook (blockEntryStep s data desc).doc.blocks b' = dlook s.doc.blocks b' := by
  unfold blockEntryStep
  dsimp only
  repeat' split
  all_goals first
  | rfl
  | exact dlook_dmod_ne _ _ _ _ hb'

/-! ### Claim C5: duplicate block headers -/

/-- C5: duplicate block headers are merged, never forked.  (1) In any
successfully read document every block name is listed exactly once by
`Blocks()`.  (2) A header line for an already-present name leaves the
document — the first block's identity, description, comments, and entries
— completely unchanged, only re-pointing the parser at that name.  (3) A
subsequent entry line targets the current block by name: it never changes
the block-name list and never touches any block other than the current
one, so its entry lands in the original block's map. -/
theorem C5_duplicate_block_merge :
    (∀ t d, ReadSLHA t = some d → ∀ X, X ∈ d.Blocks → d.Blocks.count X = 1) ∧
    (∀ s l hd rest, pyStartsWith (pyStrip l) "#" = false →
      pyStartsWith (pyLower (pyStrip l)) "block" = true →
      pySplitNone1 (pyDataDesc (pyStrip l)).1 = [hd, rest] →
      (dlook s.doc.blocks (pyStrip rest)).isSome = true →
      step s l = some { s with dt := some DT.B, curBlock := pyStrip rest }) ∧
    (∀ s l, s.dt = some DT.B →
      pyStartsWith (pyStrip l) "#" = false →
      pyStartsWith (pyLower (pyStrip l)) "block" = false →
      pyStartsWith (pyLower (pyStrip l)) "decay" = false →
      ∃ s', step s l = some s' ∧
        s'.doc.Blocks = s.doc.Blocks ∧
        (∀ b', b' ≠ s.curBlock →
          dlook s'.doc.blocks b' = dlook s.doc.blocks b')) := by
  refine ⟨?_, ?_, ?_⟩
  · intro t d h X hX
    obtain ⟨st, hst, hd⟩ := Option.map_eq_some'.mp h
    have hn : st.doc.Blocks.Nodup := by
      refine foldl_step_nodup (pyLines t) initState st ?_ hst
      simp [initState, SLHAdata.empty, SLHAdata.Blocks]
    rw [← hd] at hX ⊢
    exact List.count_eq_one_of_mem hn hX
  · intro s l hd rest hnc hb hsp hdup
    have hstep : step s l = blockHeaderStep s (pyDataDesc (pyStrip l)).1
        (pyDataDesc (pyStrip l)).2 := by
      simp [step, hnc, hb]
    rw [hstep]
    unfold blockHeaderStep
    rw [hsp]
    dsimp only
    rw [if_pos hdup]
  · intro s l hdt hnc hb hd
    have hstep : step s l = some (blockEntryStep s (pyDataDesc (pyStrip l)).1
        (pyDataDesc (pyStrip l)).2) := by
      simp [step, hnc, hb, hd, hdt]
    exact ⟨_, hstep, blockEntryStep_blockNames s _ _,
      fun b' hb' => blockEntryStep_other_blocks s _ _ b' hb'⟩

/-- The document produced by reading an input with two `BLOCK A` headers:
both entries live in the single block `A`. -/
def wdupDoc : SLHAdata :=
  { preamble := "",
    blocks := [("A",
      { name := "A", description := "", comments := "",
        data := [(Key.int 1,
          { key := Key.int 1, value := Value.str "10", description := "",
            columns := 2 }),
         (Key.int 3,
          { key := Key.int 3, value := Value.str "20", description := "",
            columns := 2 })] })],
    decays := [] }

/-- Witness for C5 at concrete inputs: the double-header document lists `A`
once, a duplicate `BLOCK A` header leaves a document unchanged, and an
entry line after it changes no other block and no block name. -/
theorem C5_duplicate_block_merge_witness :
    wdupDoc.Blocks.count "A" = 1 ∧
    step { doc := wdoc, dt := none, curBlock := "", curPid := 0 } "BLOCK A"
      = some { doc := wdoc, dt := some DT.B, curBlock := "A", curPid := 0 } ∧
    (∃ s', step { doc := wdoc, dt := some DT.B, curBlock := "A", curPid := 0 }
        "3 20" = some s' ∧
      s'.doc.Blocks = wdoc.Blocks ∧
      (∀ b', b' ≠ "A" → dlook s'.doc.blocks b' = dlook wdoc.blocks b')) :=
  ⟨C5_duplicate_block_merge.1 "BLOCK A\n1 10\nBLOCK A\n3 20\n" wdupDoc rfl "A"
     (by decide),
   C5_duplicate_block_merge.2.1 _ "BLOCK A" "BLOCK" "A" rfl rfl rfl rfl,
   C5_duplicate_block_merge.2.2 _ "3 20" rfl rfl rfl rfl⟩

end SLHA
